import Mathlib

/-!
# Verification of the Alation-Content-Analysis pipeline core

Shallow embedding of `src/streamlit_app.py` (the single source file of the
repository).  The embedding models:

* the standalone-word vocabulary matcher (`is_standalone_word`,
  `find_items_in_text`), including the semantics of Python's
  `re.finditer(r'\b' + re.escape(item) + r'\b', text, re.IGNORECASE)`:
  case-insensitive literal occurrences bracketed by `\b` word boundaries,
  scanned left to right and non-overlapping;
* the HTML tree operations used by `get_deployment_type_from_scraping` and
  `extract_main_content` (BeautifulSoup `find`, `find_all` + `decompose`,
  `get_text`), over an explicit DOM tree type;
* the Step-1 scrape loop that builds one output row per input URL, with the
  network modelled as an oracle `String → Option Soup` (`none` = the
  `requests.exceptions.RequestException` branch of `analyze_page_content`);
* `process_ai_response` / the per-row enrichment step, with the external csv
  parse (`pandas.read_csv` of the first row) passed as a parameter.

Conventions: text is modelled as `List Char`; Python `\w` is modelled as
ASCII alphanumeric or underscore (`re` default on the ASCII texts involved);
Python `str.isspace` is modelled by `Char.isWhitespace`.  BeautifulSoup
`Tag.__bool__` is constant `True` ("a tag is non-None even if it has no
contents"), so `if soup:` / `or`-chains over `find` results test only for
`None`.
-/

/-! ## Characters and word boundaries -/

/-- Python `\w` on ASCII text: letters, digits, underscore. -/
def isWordChar (c : Char) : Bool := c.isAlphanum || c == '_'

/-- The punctuation set of `is_standalone_word`: `'(),."\''`. -/
def punctSet : List Char := ['(', ')', ',', '.', '"', '\'']

/-- A character that `is_standalone_word` accepts next to a match:
whitespace or one of `( ) , . " '`. -/
def boundaryCharOk (c : Char) : Bool := c.isWhitespace || punctSet.contains c

/-- Word-character test at an index; out-of-range positions count as
non-word (as at the ends of the text). -/
def wordAt (t : List Char) (i : Nat) : Bool := isWordChar (t.getD i ' ')

/-- Python regex `\b` at position `i` of `t`: the word-ness of the character
before `i` differs from the word-ness of the character at `i`. -/
def boundaryAt (t : List Char) (i : Nat) : Bool :=
  (if i = 0 then false else wordAt t (i - 1)) != wordAt t i

/-- Case-insensitive character comparison (`re.IGNORECASE`). -/
def ciEq (a b : Char) : Bool := a.toLower == b.toLower

/-- The escaped literal `pat` matches case-insensitively at position `p` of
`t` (`re.escape` makes the item a literal pattern). -/
def matchesAt (t pat : List Char) (p : Nat) : Bool :=
  decide (p + pat.length ≤ t.length) &&
    (List.range pat.length).all (fun j => ciEq (t.getD (p + j) ' ') (pat.getD j ' '))

/-- A match of the compiled pattern `\b<escaped item>\b`: the literal occurs
at `p` and both ends sit on a `\b` boundary. -/
def regexMatchAt (t pat : List Char) (p : Nat) : Bool :=
  matchesAt t pat p && boundaryAt t p && boundaryAt t (p + pat.length)

/-- Leftmost pattern-match position `≥ i`, scanning with explicit fuel
(`fuel = t.length + 1 - i` covers every start position). -/
def scanFrom (t pat : List Char) (i : Nat) : Nat → Option Nat
  | 0 => none
  | k + 1 => if regexMatchAt t pat i then some i else scanFrom t pat (i + 1) k

/-- The `re.finditer` position list from start `i`: repeatedly take the leftmost
match and resume after its end (after one character for an empty pattern). -/
def finditerAux (t pat : List Char) : Nat → Nat → List Nat
  | _, 0 => []
  | i, k + 1 =>
    match scanFrom t pat i (t.length + 1 - i) with
    | none => []
    | some p => p :: finditerAux t pat (p + max pat.length 1) k

/-- All (non-overlapping, left-to-right) match positions of
`re.finditer(r'\b' + re.escape(pat) + r'\b', t, re.IGNORECASE)`. -/
def finditerPositions (t pat : List Char) : List Nat :=
  finditerAux t pat 0 (t.length + 1)

/-! ## `is_standalone_word` and `find_items_in_text` -/

/-- Model of `is_standalone_word(text, match)` with `s = match.start()`,
`e = match.end()`: the character before the match is absent or
whitespace/punctuation, and symmetrically for the character after. -/
def is_standalone_word (t : List Char) (s e : Nat) : Bool :=
  ((s == 0) || boundaryCharOk (t.getD (s - 1) ' ')) &&
  ((e == t.length) || boundaryCharOk (t.getD e ' '))

/-- The inner loop of `find_items_in_text` for one item: some `finditer`
match passes `is_standalone_word` (the loop breaks at the first such hit). -/
def hasStandaloneMatch (t pat : List Char) : Bool :=
  (finditerPositions t pat).any (fun p => is_standalone_word t p (p + pat.length))

/-- The `for item in items` accumulation loop of `find_items_in_text`:
skip items already found, append an item on its first standalone match. -/
def find_items_loop (text : String) : List String → List String → List String
  | [], acc => acc
  | item :: rest, acc =>
    if item ∈ acc then find_items_loop text rest acc
    else if hasStandaloneMatch text.data item.data then
      find_items_loop text rest (acc ++ [item])
    else find_items_loop text rest acc

/-- The `found_items` list computed by `find_items_in_text` on a string. -/
def findItemsList (text : String) (items : List String) : List String :=
  find_items_loop text items []

/-- Model of `find_items_in_text(text, items)`; `none` models a non-string `text`
(`if not isinstance(text, str): return ""`). -/
def find_items_in_text (text : Option String) (items : List String) : String :=
  match text with
  | none => ""
  | some t =>
    let found := find_items_loop t items []
    if found.isEmpty then "" else String.intercalate ", " found

/-- Python `str.strip()` on a character list: drop leading and trailing
whitespace. -/
def stripChars (l : List Char) : List Char :=
  ((l.dropWhile Char.isWhitespace).reverse.dropWhile Char.isWhitespace).reverse

/-- Python `str.strip()`. -/
def pyStrip (s : String) : String := String.mk (stripChars s.data)

/-- Removing later duplicate terms from a vocabulary, keeping each term's
first occurrence (used to state the duplicate-invariance claim). -/
def dedupFrom (seen : List String) : List String → List String
  | [] => []
  | x :: rest => if x ∈ seen then dedupFrom seen rest else x :: dedupFrom (x :: seen) rest

/-- A vocabulary with duplicates removed, first occurrences kept. -/
def dedupKeepFirst (items : List String) : List String := dedupFrom [] items

/-! ## The HTML tree model

BeautifulSoup's parse tree: element nodes carry a tag name, the multi-valued
`class` attribute, and children; text nodes carry a string.  A parsed soup is
the list of top-level nodes of the document; `find`-style searches walk all
descendants in document (pre)order. -/

mutual
inductive Node where
  | text : String → Node
  | element : String → List String → NodeList → Node
inductive NodeList where
  | nil : NodeList
  | cons : Node → NodeList → NodeList
end

/-- A parsed document: its top-level nodes. -/
abbrev Soup := NodeList

/-- Build a `NodeList` from a `List Node` (notation convenience). -/
def nodeListOf : List Node → NodeList
  | [] => .nil
  | n :: ns => .cons n (nodeListOf ns)

mutual
/-- All text-node strings below (and at) a node, in document order
(BeautifulSoup `tag.strings`). -/
def fragments : Node → List String
  | .text s => [s]
  | .element _ _ cs => fragmentsList cs
def fragmentsList : NodeList → List String
  | .nil => []
  | .cons c rest => fragments c ++ fragmentsList rest
end

/-- Model of `tag.get_text()` with default arguments: concatenation of all
text-node strings. -/
def getTextPlain (n : Node) : String := String.join (fragments n)

/-- Model of `tag.get_text(separator=' ', strip=True)`: each text fragment is
stripped, empty fragments are dropped, the rest joined by single spaces. -/
def getTextSepStrip (n : Node) : String :=
  String.intercalate " " (((fragments n).map pyStrip).filter (fun s => !s.isEmpty))

mutual
/-- Model of `soup.find(name)` restricted to one subtree: the node itself if its tag
matches, else the first matching descendant in document order. -/
def findTag (name : String) : Node → Option Node
  | .text _ => none
  | .element t cl cs =>
    if t == name then some (.element t cl cs) else findTagInList name cs
/-- Model of `soup.find(name)` over a list of sibling subtrees. -/
def findTagInList (name : String) : NodeList → Option Node
  | .nil => none
  | .cons c rest =>
    match findTag name c with
    | some r => some r
    | none => findTagInList name rest
end

mutual
/-- Model of `soup.find('p', class_=cls) is not None` restricted to one subtree:
a `p` element whose `class` attribute contains `cls` exists here. -/
def hasPWithClass (cls : String) : Node → Bool
  | .text _ => false
  | .element t cl cs => (t == "p" && cl.contains cls) || hasPWithClassList cls cs
/-- Model of `soup.find('p', class_=cls) is not None` over a list of subtrees. -/
def hasPWithClassList (cls : String) : NodeList → Bool
  | .nil => false
  | .cons c rest => hasPWithClass cls c || hasPWithClassList cls rest
end

/-- The boilerplate tag names removed by `extract_main_content`. -/
def boilerTags : List String := ["nav", "header", "footer", "aside"]

/-- A node that `find_all(['nav', 'header', 'footer', 'aside'])` matches. -/
def isBoiler : Node → Bool
  | .text _ => false
  | .element t _ _ => boilerTags.contains t

mutual
/-- Effect of decomposing every `nav`/`header`/`footer`/`aside` descendant
of a node: matching children are deleted with their subtrees, the remaining
children are cleaned recursively (the node itself is kept: `find_all`
searches descendants only). -/
def stripNode : Node → Node
  | .text s => .text s
  | .element t cl cs => .element t cl (stripList cs)
/-- Effect of `stripNode` on a children list. -/
def stripList : NodeList → NodeList
  | .nil => .nil
  | .cons c rest =>
    if isBoiler c then stripList rest else .cons (stripNode c) (stripList rest)
end

mutual
/-- Specification-side text collection: the stripped, non-empty text
fragments of a subtree, never descending into (or through)
`nav`/`header`/`footer`/`aside` elements.  Defined independently of
`stripNode`; claim C7 proves `extract_main_content` returns exactly these
fragments joined by single spaces. -/
def cleanFragments : Node → List String
  | .text s => if (pyStrip s).isEmpty then [] else [pyStrip s]
  | .element t _ cs => if boilerTags.contains t then [] else cleanFragmentsList cs
/-- Collection of `cleanFragments` over a children list. -/
def cleanFragmentsList : NodeList → List String
  | .nil => []
  | .cons c rest => cleanFragments c ++ cleanFragmentsList rest
end

/-! ## Scraping functions -/

/-- Model of `get_deployment_type_from_scraping(soup)`: the two structural markers
are `p.cloud-label` and `p.on-prem-label`; no marker yields the empty
string.  `none` models a falsy `soup` (`if not soup: return ""`). -/
def get_deployment_type_from_scraping : Option Soup → String
  | none => ""
  | some soup =>
    if hasPWithClassList "cloud-label" soup && hasPWithClassList "on-prem-label" soup then
      "Alation Cloud Service, Customer Managed"
    else if hasPWithClassList "cloud-label" soup then "Alation Cloud Service"
    else if hasPWithClassList "on-prem-label" soup then "Customer Managed"
    else ""

/-- Model of `soup.find('article') or soup.find('main') or soup.body`: the first of
the three lookups that is not `None` (BeautifulSoup tags are always
truthy). -/
def mainContent (soup : Soup) : Option Node :=
  match findTagInList "article" soup with
  | some a => some a
  | none =>
    match findTagInList "main" soup with
    | some m => some m
    | none => findTagInList "body" soup

/-- Model of `extract_main_content(soup)`: `none` models `soup` being `None`;
otherwise the chosen main-content node is cleaned of boilerplate in place
and its text extracted, and if no node was found the result is
`"Main Content Not Found"`. -/
def extract_main_content : Option Soup → String
  | none => "Content Not Available"
  | some soup =>
    match mainContent soup with
    | some m => getTextSepStrip (stripNode m)
    | none => "Main Content Not Found"

/-! ## The Step-1 scrape loop -/

/-- One row of the Step-1 result table. -/
structure Row where
  pageTitle : String
  pageURL : String
  deploymentType : String
  pageContent : String
deriving Repr, DecidableEq

/-- Model of `analyze_page_content(url)` given the outcome of the network fetch:
`none` is the `requests.exceptions.RequestException` branch (non-2xx
status, timeout, connection error); on success the title is the stripped
text of the first `title` element, defaulting to `"No Title Found"`. -/
def analyze_page_content (page : Option Soup) : Option Soup × String :=
  match page with
  | none => (none, "Fetch Error")
  | some soup =>
    match findTagInList "title" soup with
    | some t => (some soup, pyStrip (getTextPlain t))
    | none => (some soup, "No Title Found")

/-- The body of the Step-1 `for` loop for one URL: build the row dict from
the fetched soup, or the `Fetch Error` row if the fetch failed. -/
def scrapeRow (fetch : String → Option Soup) (url : String) : Row :=
  match analyze_page_content (fetch url) with
  | (some soup, title) =>
    ⟨title, url, get_deployment_type_from_scraping (some soup),
      extract_main_content (some soup)⟩
  | (none, title) => ⟨title, url, "Fetch Error", "Fetch Error"⟩

/-- The Step-1 scrape loop: one appended result row per input URL, in input
order; a failed fetch never aborts the loop. -/
def step1_scrape (fetch : String → Option Soup) (urls : List String) : List Row :=
  urls.map (scrapeRow fetch)

/-! ## AI-response processing (`process_ai_response`, enrichment step)

The closed label set, the fenced-block extraction, and the first-row CSV
parse.  `pandas.read_csv`-plus-first-row is passed as a parameter
`parse : String → Option AiRow` (`none` covers both a parse exception,
which the source catches, and an empty frame; either way the source
returns `None`). -/

/-- The closed deployment label set of the master prompt (the three values
named in `MASTER_PROMPT`, Step 1). -/
def closedDeploymentLabels : List String :=
  ["Alation Cloud Service", "Customer Managed",
   "Alation Cloud Service, Customer Managed"]

/-- The first row of the parsed AI CSV: column name to value. -/
abbrev AiRow := List (String × String)

/-- The literal `pat` occurs (case-sensitively) at position `p` of `t`. -/
def litMatchAt (t pat : List Char) (p : Nat) : Bool :=
  decide (p + pat.length ≤ t.length) &&
    (List.range pat.length).all (fun j => t.getD (p + j) ' ' == pat.getD j ' ')

/-- Leftmost case-sensitive occurrence of `pat` at position `≥ i`. -/
def scanLitFrom (t pat : List Char) (i : Nat) : Nat → Option Nat
  | 0 => none
  | k + 1 => if litMatchAt t pat i then some i else scanLitFrom t pat (i + 1) k

/-- Model of the group extracted by `re.search` of the csv fence pattern with `re.DOTALL`:
the text between the first opening fence and the first closing fence after
it (the non-greedy group takes the shortest extent). -/
def findCsvBlock (t : List Char) : Option (List Char) :=
  let opener := "```csv\n".data
  let closer := "\n```".data
  match scanLitFrom t opener 0 (t.length + 1) with
  | none => none
  | some p =>
    let s := p + opener.length
    match scanLitFrom t closer s (t.length + 1 - s) with
    | none => none
    | some q => some ((t.drop s).take (q - s))

/-- Model of `process_ai_response(response_text, url)`: extract the fenced csv
block and hand it to the external parse; no block, a parse failure, or an
empty frame all yield `None` (the `url` argument only feeds warnings). -/
def process_ai_response (parse : String → Option AiRow) (response_text : String) :
    Option AiRow :=
  match findCsvBlock response_text.data with
  | none => none
  | some block => parse (String.mk block)

/-- Model of `df_to_process.loc[index, col] = value`: overwrite the column if
present, otherwise append it. -/
def setCol (row : AiRow) (key val : String) : AiRow :=
  if row.any (fun kv => kv.1 == key) then
    row.map (fun kv => if kv.1 == key then (key, val) else kv)
  else row ++ [(key, val)]

/-- The per-row body of `enrich_data_with_ai`, abstracted over the provider
round trip: given the raw response text for this row, copy every column of
the parsed first row into the row; a `None` result leaves the row as it
was. -/
def enrich_row (parse : String → Option AiRow) (response_text : String)
    (row : AiRow) : AiRow :=
  match process_ai_response parse response_text with
  | none => row
  | some e => e.foldl (fun r kv => setCol r kv.1 kv.2) row

/-- Split a character list at every occurrence of `sep`. -/
def splitOnChar (sep : Char) (l : List Char) : List (List Char) :=
  l.foldr
    (fun c ls =>
      match ls with
      | [] => [[c]]
      | hd :: rest => if c == sep then [] :: hd :: rest else (c :: hd) :: rest)
    [[]]

/-- A concrete stand-in for `pandas.read_csv` + `.iloc[0]` on simple,
unquoted CSV text: first line is the header, second line the first data
row, fields split on commas; anything else fails. -/
def simpleCsvFirstRow (s : String) : Option AiRow :=
  match splitOnChar '\n' s.data with
  | header :: firstRow :: _ =>
    let hs := (splitOnChar ',' header).map String.mk
    let vs := (splitOnChar ',' firstRow).map String.mk
    if hs.length = vs.length then some (hs.zip vs) else none
  | _ => none

/-! ## Helper lemmas: the matcher -/

theorem scanFrom_eq_some {t pat : List Char} {i k p : Nat}
    (h : scanFrom t pat i k = some p) : regexMatchAt t pat p = true := by
  induction k generalizing i with
  | zero => simp [scanFrom] at h
  | succ k ih =>
    rw [scanFrom] at h
    by_cases hm : regexMatchAt t pat i = true
    · rw [if_pos hm, Option.some_inj] at h
      exact h ▸ hm
    · rw [if_neg hm] at h
      exact ih h

theorem mem_finditerAux {t pat : List Char} {i k p : Nat}
    (h : p ∈ finditerAux t pat i k) : regexMatchAt t pat p = true := by
  induction k generalizing i with
  | zero => simp [finditerAux] at h
  | succ k ih =>
    rw [finditerAux] at h
    cases hs : scanFrom t pat i (t.length + 1 - i) with
    | none => rw [hs] at h; simp at h
    | some q =>
      rw [hs] at h
      rcases List.mem_cons.mp h with rfl | hmem
      · exact scanFrom_eq_some hs
      · exact ih hmem

theorem mem_finditerPositions {t pat : List Char} {p : Nat}
    (h : p ∈ finditerPositions t pat) : regexMatchAt t pat p = true :=
  mem_finditerAux h

theorem hasStandaloneMatch_sound {t pat : List Char}
    (h : hasStandaloneMatch t pat = true) :
    ∃ p, regexMatchAt t pat p = true ∧
      is_standalone_word t p (p + pat.length) = true := by
  obtain ⟨p, hmem, hsa⟩ := List.any_eq_true.mp h
  exact ⟨p, mem_finditerPositions hmem, hsa⟩

theorem regexMatchAt_matches {t pat : List Char} {p : Nat}
    (h : regexMatchAt t pat p = true) : matchesAt t pat p = true := by
  have := Bool.and_elim_left (Bool.and_elim_left h)
  exact this

theorem matchesAt_le {t pat : List Char} {p : Nat}
    (h : matchesAt t pat p = true) : p + pat.length ≤ t.length := by
  have := Bool.and_elim_left h
  exact of_decide_eq_true this

theorem is_standalone_word_spec {t : List Char} {s e : Nat}
    (h : is_standalone_word t s e = true) :
    (s = 0 ∨ boundaryCharOk (t.getD (s - 1) ' ') = true) ∧
    (e = t.length ∨ boundaryCharOk (t.getD e ' ') = true) := by
  have h1 := Bool.and_elim_left h
  have h2 := Bool.and_elim_right h
  constructor
  · rcases Bool.or_eq_true_iff.mp h1 with h' | h'
    · exact Or.inl (beq_iff_eq.mp h')
    · exact Or.inr h'
  · rcases Bool.or_eq_true_iff.mp h2 with h' | h'
    · exact Or.inl (beq_iff_eq.mp h')
    · exact Or.inr h'

/-- The accumulator invariant of the `find_items_in_text` loop: the loop
appends to `acc` a duplicate-free subsequence of the remaining items, each
appended item fresh for `acc` and actually found in the text. -/
theorem find_items_loop_spec (text : String) :
    ∀ (items acc : List String),
      ∃ s, find_items_loop text items acc = acc ++ s ∧ s.Sublist items ∧
        s.Nodup ∧ (∀ x ∈ s, x ∉ acc) ∧
        (∀ x ∈ s, hasStandaloneMatch text.data x.data = true) := by
  intro items
  induction items with
  | nil =>
    intro acc
    exact ⟨[], by simp [find_items_loop], List.nil_sublist _, List.nodup_nil,
      by simp, by simp⟩
  | cons item rest ih =>
    intro acc
    by_cases hmem : item ∈ acc
    · obtain ⟨s, h1, h2, h3, h4, h5⟩ := ih acc
      exact ⟨s, by rw [find_items_loop, if_pos hmem]; exact h1,
        h2.cons _, h3, h4, h5⟩
    · by_cases hfound : hasStandaloneMatch text.data item.data = true
      · obtain ⟨s, h1, h2, h3, h4, h5⟩ := ih (acc ++ [item])
        refine ⟨item :: s, ?_, h2.cons₂ _, ?_, ?_, ?_⟩
        · rw [find_items_loop, if_neg hmem, if_pos hfound, h1,
            List.append_assoc]
          rfl
        · exact List.nodup_cons.mpr
            ⟨fun hx => (h4 item hx) (List.mem_append_right _ (List.mem_singleton.mpr rfl)), h3⟩
        · intro x hx
          rcases List.mem_cons.mp hx with rfl | hx'
          · exact hmem
          · exact fun hxa => (h4 x hx') (List.mem_append_left _ hxa)
        · intro x hx
          rcases List.mem_cons.mp hx with rfl | hx'
          · exact hfound
          · exact h5 x hx'
      · obtain ⟨s, h1, h2, h3, h4, h5⟩ := ih acc
        exact ⟨s, by rw [find_items_loop, if_neg hmem, if_neg hfound]; exact h1,
          h2.cons _, h3, h4, h5⟩

theorem findItemsList_sublist (text : String) (items : List String) :
    (findItemsList text items).Sublist items := by
  obtain ⟨s, h1, h2, -, -, -⟩ := find_items_loop_spec text items []
  rw [findItemsList, h1, List.nil_append]
  exact h2

theorem findItemsList_nodup (text : String) (items : List String) :
    (findItemsList text items).Nodup := by
  obtain ⟨s, h1, -, h3, -, -⟩ := find_items_loop_spec text items []
  rw [findItemsList, h1, List.nil_append]
  exact h3

theorem findItemsList_found (text : String) (items : List String) :
    ∀ x ∈ findItemsList text items, hasStandaloneMatch text.data x.data = true := by
  obtain ⟨s, h1, -, -, -, h5⟩ := find_items_loop_spec text items []
  rw [findItemsList, h1, List.nil_append]
  exact h5

/-- Duplicate invariance of the loop: items already seen are either in the
accumulator (and skipped) or not found (and skipped again), so removing
later duplicates does not change the result. -/
theorem find_items_loop_dedup (text : String) :
    ∀ (items seen acc : List String),
      (∀ x ∈ seen, x ∈ acc ∨ hasStandaloneMatch text.data x.data = false) →
      find_items_loop text items acc = find_items_loop text (dedupFrom seen items) acc := by
  intro items
  induction items with
  | nil => intro seen acc _; rfl
  | cons item rest ih =>
    intro seen acc hinv
    by_cases hseen : item ∈ seen
    · rw [dedupFrom, if_pos hseen, find_items_loop]
      by_cases hmem : item ∈ acc
      · rw [if_pos hmem]
        exact ih seen acc hinv
      · rw [if_neg hmem]
        rcases hinv item hseen with h | h
        · exact absurd h hmem
        · rw [if_neg (by rw [h]; exact Bool.false_ne_true)]
          exact ih seen acc hinv
    · rw [dedupFrom, if_neg hseen, find_items_loop, find_items_loop]
      by_cases hmem : item ∈ acc
      · rw [if_pos hmem, if_pos hmem]
        refine ih (item :: seen) acc ?_
        intro x hx
        rcases List.mem_cons.mp hx with rfl | hx'
        · exact Or.inl hmem
        · exact hinv x hx'
      · rw [if_neg hmem, if_neg hmem]
        by_cases hfound : hasStandaloneMatch text.data item.data = true
        · rw [if_pos hfound, if_pos hfound]
          refine ih (item :: seen) (acc ++ [item]) ?_
          intro x hx
          rcases List.mem_cons.mp hx with rfl | hx'
          · exact Or.inl (List.mem_append_right _ (List.mem_singleton.mpr rfl))
          · rcases hinv x hx' with h | h
            · exact Or.inl (List.mem_append_left _ h)
            · exact Or.inr h
        · rw [if_neg hfound, if_neg hfound]
          refine ih (item :: seen) acc ?_
          intro x hx
          rcases List.mem_cons.mp hx with rfl | hx'
          · exact Or.inr (Bool.eq_false_iff.mpr hfound)
          · exact hinv x hx'

/-- If no item has a standalone match, the loop returns its accumulator. -/
theorem find_items_loop_nothing (text : String) :
    ∀ (items acc : List String),
      (∀ x ∈ items, hasStandaloneMatch text.data x.data = false) →
      find_items_loop text items acc = acc := by
  intro items
  induction items with
  | nil => intro acc _; rfl
  | cons item rest ih =>
    intro acc hnone
    rw [find_items_loop]
    by_cases hmem : item ∈ acc
    · rw [if_pos hmem]
      exact ih acc fun x hx => hnone x (List.mem_cons_of_mem _ hx)
    · rw [if_neg hmem,
        if_neg (by rw [hnone item (List.mem_cons_self _ _)]; exact Bool.false_ne_true)]
      exact ih acc fun x hx => hnone x (List.mem_cons_of_mem _ hx)

/-! ## Helper lemmas: the tree -/

theorem cleanFragments_of_boiler {c : Node} (h : isBoiler c = true) :
    cleanFragments c = [] := by
  cases c with
  | text s => simp [isBoiler] at h
  | element t cl cs =>
    rw [isBoiler] at h
    rw [cleanFragments, if_pos h]

mutual
/-- Stripping boilerplate and then extracting the trimmed non-empty
fragments is the same as collecting fragments while skipping boilerplate
subtrees: no text of a removed subtree survives. -/
theorem fragments_strip_eq (n : Node) (h : isBoiler n = false) :
    ((fragments (stripNode n)).map pyStrip).filter (fun s => !s.isEmpty) =
      cleanFragments n := by
  cases n with
  | text s =>
    rw [stripNode, fragments, cleanFragments]
    by_cases hE : (pyStrip s).isEmpty = true
    · simp [List.filter, hE]
    · simp [List.filter, hE]
  | element t cl cs =>
    rw [isBoiler] at h
    rw [stripNode, fragments, cleanFragments, if_neg (by rw [h]; exact Bool.false_ne_true)]
    exact fragmentsList_strip_eq cs

theorem fragmentsList_strip_eq (l : NodeList) :
    ((fragmentsList (stripList l)).map pyStrip).filter (fun s => !s.isEmpty) =
      cleanFragmentsList l := by
  cases l with
  | nil => rw [stripList, fragmentsList, cleanFragmentsList]; rfl
  | cons c rest =>
    rw [stripList, cleanFragmentsList]
    by_cases hB : isBoiler c = true
    · rw [if_pos hB, cleanFragments_of_boiler hB, List.nil_append]
      exact fragmentsList_strip_eq rest
    · rw [if_neg hB, fragmentsList, List.map_append, List.filter_append,
        fragments_strip_eq c (Bool.eq_false_iff.mpr hB),
        fragmentsList_strip_eq rest]
end

mutual
/-- A successful `find(name)` within a subtree returns an element whose tag
is `name`. -/
theorem findTag_tag (name : String) (n r : Node) (h : findTag name n = some r) :
    ∃ cl cs, r = .element name cl cs := by
  cases n with
  | text s => simp [findTag] at h
  | element t cl cs =>
    rw [findTag] at h
    by_cases hEq : (t == name) = true
    · rw [if_pos hEq, Option.some_inj] at h
      exact ⟨cl, cs, by rw [← h, beq_iff_eq.mp hEq]⟩
    · rw [if_neg hEq] at h
      exact findTagInList_tag name cs r h

theorem findTagInList_tag (name : String) (l : NodeList) (r : Node)
    (h : findTagInList name l = some r) : ∃ cl cs, r = .element name cl cs := by
  cases l with
  | nil => simp [findTagInList] at h
  | cons c rest =>
    rw [findTagInList] at h
    cases hc : findTag name c with
    | some q =>
      rw [hc, Option.some_inj] at h
      exact h ▸ findTag_tag name c q hc
    | none =>
      rw [hc] at h
      exact findTagInList_tag name rest r h
end

/-- The main-content node chosen by `extract_main_content` is an `article`,
`main` or `body` element, hence never one of the boilerplate tags. -/
theorem mainContent_not_boiler {soup : Soup} {m : Node}
    (h : mainContent soup = some m) : isBoiler m = false := by
  rw [mainContent] at h
  cases hA : findTagInList "article" soup with
  | some a =>
    rw [hA, Option.some_inj] at h
    obtain ⟨cl, cs, rfl⟩ := h ▸ findTagInList_tag _ _ _ hA
    rw [isBoiler]; decide
  | none =>
    rw [hA] at h
    cases hM : findTagInList "main" soup with
    | some b =>
      rw [hM, Option.some_inj] at h
      obtain ⟨cl, cs, rfl⟩ := h ▸ findTagInList_tag _ _ _ hM
      rw [isBoiler]; decide
    | none =>
      rw [hM] at h
      obtain ⟨cl, cs, rfl⟩ := findTagInList_tag _ _ _ h
      rw [isBoiler]; decide

/-! ## Claim C2 -/

/-- C2: for every text and vocabulary term, a standalone match is reported
only when the character immediately before the matched substring is absent
(start of text), whitespace, or one of `( ) , . " '`, and symmetrically for
the character immediately after; in particular, text "overview of Viewer
role" with vocabulary ["view"] yields no match, while "See the Viewer role"
with vocabulary ["Viewer"] yields a match. -/
theorem claim2_standalone_only_if :
    (∀ (t item : String) (items : List String),
        item ∈ findItemsList t items →
        ∃ p, matchesAt t.data item.data p = true ∧
          (p = 0 ∨ boundaryCharOk (t.data.getD (p - 1) ' ') = true) ∧
          (p + item.data.length = t.data.length ∨
            boundaryCharOk (t.data.getD (p + item.data.length) ' ') = true)) ∧
    find_items_in_text (some "overview of Viewer role") ["view"] = "" ∧
    find_items_in_text (some "See the Viewer role") ["Viewer"] = "Viewer" := by
  refine ⟨?_, by decide, by decide⟩
  intro t item items hmem
  have hfound := findItemsList_found t items item hmem
  obtain ⟨p, hre, hsa⟩ := hasStandaloneMatch_sound hfound
  exact ⟨p, regexMatchAt_matches hre, (is_standalone_word_spec hsa).1,
    (is_standalone_word_spec hsa).2⟩

/-- Witness for C2 at the positive example. -/
theorem claim2_witness :
    ("Viewer" ∈ findItemsList "See the Viewer role" ["Viewer"]) ∧
    (∃ p, matchesAt "See the Viewer role".data "Viewer".data p = true ∧
      (p = 0 ∨ boundaryCharOk ("See the Viewer role".data.getD (p - 1) ' ') = true) ∧
      (p + "Viewer".data.length = "See the Viewer role".data.length ∨
        boundaryCharOk
          ("See the Viewer role".data.getD (p + "Viewer".data.length) ' ') = true)) :=
  ⟨by decide,
    claim2_standalone_only_if.1 "See the Viewer role" "Viewer" ["Viewer"] (by decide)⟩

/-! ## Claim C3 -/

/-- C3: for every body text and ordered vocabulary, the matcher's result
list is a subsequence of the vocabulary in original order, every returned
term is (verbatim) a member of the vocabulary, and matching is
case-insensitive while output keeps the vocabulary's casing. -/
theorem claim3_subsequence :
    (∀ (t : String) (items : List String),
        (findItemsList t items).Sublist items ∧
        ∀ x ∈ findItemsList t items, x ∈ items) ∧
    findItemsList "see the VIEWER role" ["Viewer"] = ["Viewer"] := by
  refine ⟨fun t items => ⟨findItemsList_sublist t items, ?_⟩, by decide⟩
  intro x hx
  exact (findItemsList_sublist t items).subset hx

/-- Witness for C3: the membership conjunct applied at a found term. -/
theorem claim3_witness :
    (findItemsList "see the VIEWER role" ["Viewer"]).Sublist ["Viewer"] ∧
    "Viewer" ∈ (["Viewer"] : List String) :=
  ⟨(claim3_subsequence.1 "see the VIEWER role" ["Viewer"]).1,
    (claim3_subsequence.1 "see the VIEWER role" ["Viewer"]).2 "Viewer" (by decide)⟩

/-! ## Claim C5 -/

/-- C5 counterexample: a non-string input yields the empty string, not the
sentinel "Not Searched" (no such sentinel exists in the code; the
no-matches case also yields the empty string, so the two cases are not
distinguishable). -/
theorem claim5_counterexample :
    find_items_in_text none ["Admin"] = "" ∧
    find_items_in_text (some "no roles here") ["Admin"] = "" ∧
    ("" : String) ≠ "Not Searched" ∧ ("" : String) ≠ "No Roles Found" := by
  refine ⟨rfl, by decide, by decide, by decide⟩

/-- C5 (amended): a non-string input yields the empty string, and a valid
string in which no vocabulary term has a standalone match also yields the
empty string — the two outcomes coincide; no "Not Searched" or "No Roles
Found" sentinel is produced. -/
theorem claim5_amended :
    (∀ items : List String, find_items_in_text none items = "") ∧
    (∀ (t : String) (items : List String),
      (∀ item ∈ items, hasStandaloneMatch t.data item.data = false) →
      find_items_in_text (some t) items = "") := by
  refine ⟨fun items => rfl, ?_⟩
  intro t items h
  simp only [find_items_in_text]
  rw [find_items_loop_nothing t items [] h]
  rfl

/-- Witness for C5 (amended) at concrete inputs. -/
theorem claim5_witness :
    find_items_in_text none ["Admin"] = "" ∧
    (∀ item ∈ (["view"] : List String),
      hasStandaloneMatch "overview of Viewer role".data item.data = false) ∧
    find_items_in_text (some "overview of Viewer role") ["view"] = "" :=
  ⟨claim5_amended.1 ["Admin"], by decide,
    claim5_amended.2 "overview of Viewer role" ["view"] (by decide)⟩

/-! ## Claim C9 -/

/-- C9: duplicate vocabulary terms do not change the matcher's output (the
result equals the result on the vocabulary with later duplicates removed),
and each term is reported at most once. -/
theorem claim9_duplicates :
    ∀ (t : String) (items : List String),
      findItemsList t items = findItemsList t (dedupKeepFirst items) ∧
      find_items_in_text (some t) items =
        find_items_in_text (some t) (dedupKeepFirst items) ∧
      (findItemsList t items).Nodup := by
  intro t items
  have hlist : findItemsList t items = findItemsList t (dedupKeepFirst items) := by
    rw [findItemsList, findItemsList, dedupKeepFirst]
    exact find_items_loop_dedup t items [] [] (by simp)
  refine ⟨hlist, ?_, findItemsList_nodup t items⟩
  simp only [find_items_in_text]
  rw [show find_items_loop t items [] =
    find_items_loop t (dedupKeepFirst items) [] from hlist]

/-! ## Claim C10 -/

/-- C10 (implicit): an occurrence of a term immediately adjacent to a
non-whitespace character outside the set `( ) , . " '` (for example "cloud"
inside "cloud-native", or a term immediately followed by a colon) is never
reported, even though such an occurrence lies at a regex word boundary;
`finditerPositions` on "cloud-native apps" does produce the regex match,
yet the matcher reports nothing. -/
theorem claim10_adjacent_bad_never_reported :
    (∀ (t item : String),
        (∀ p, p ≤ t.data.length → matchesAt t.data item.data p = true →
          (p ≠ 0 ∧ boundaryCharOk (t.data.getD (p - 1) ' ') = false) ∨
          (p + item.data.length ≠ t.data.length ∧
            boundaryCharOk (t.data.getD (p + item.data.length) ' ') = false)) →
        ∀ items : List String, item ∉ findItemsList t items) ∧
    finditerPositions "cloud-native apps".data "cloud".data = [0] ∧
    find_items_in_text (some "cloud-native apps") ["cloud"] = "" ∧
    find_items_in_text (some "the cloud: overview") ["cloud"] = "" := by
  refine ⟨?_, by decide, by decide, by decide⟩
  intro t item hbad items hmem
  have hfound := findItemsList_found t items item hmem
  obtain ⟨p, hre, hsa⟩ := hasStandaloneMatch_sound hfound
  have hm := regexMatchAt_matches hre
  have hple : p ≤ t.data.length :=
    le_trans (Nat.le_add_right _ _) (matchesAt_le hm)
  have hsp := is_standalone_word_spec hsa
  rcases hbad p hple hm with ⟨hne, hbc⟩ | ⟨hne, hbc⟩
  · rcases hsp.1 with h0 | hok
    · exact hne h0
    · rw [hbc] at hok
      exact Bool.false_ne_true hok
  · rcases hsp.2 with h0 | hok
    · exact hne h0
    · rw [hbc] at hok
      exact Bool.false_ne_true hok

/-- Witness for C10 at "cloud" inside "cloud-native apps". -/
theorem claim10_witness :
    (∀ p, p ≤ "cloud-native apps".data.length →
        matchesAt "cloud-native apps".data "cloud".data p = true →
        (p ≠ 0 ∧ boundaryCharOk ("cloud-native apps".data.getD (p - 1) ' ') = false) ∨
        (p + "cloud".data.length ≠ "cloud-native apps".data.length ∧
          boundaryCharOk
            ("cloud-native apps".data.getD (p + "cloud".data.length) ' ') = false)) ∧
    "cloud" ∉ findItemsList "cloud-native apps" ["cloud"] :=
  ⟨by decide,
    claim10_adjacent_bad_never_reported.1 "cloud-native apps" "cloud" (by decide) ["cloud"]⟩

/-! ## Claim C1 -/

/-- A paragraph element carrying one class. -/
def pWithClass (cls : String) : Node := .element "p" [cls] .nil

/-- A page with both deployment markers. -/
def soupBothMarkers : Soup :=
  nodeListOf [.element "body" []
    (nodeListOf [pWithClass "cloud-label", pWithClass "on-prem-label"])]

/-- A page with only the cloud marker. -/
def soupCloudOnly : Soup :=
  nodeListOf [.element "body" [] (nodeListOf [pWithClass "cloud-label"])]

/-- A page with only the on-premises marker. -/
def soupOnPremOnly : Soup :=
  nodeListOf [.element "body" [] (nodeListOf [pWithClass "on-prem-label"])]

/-- A fetched page with neither marker (and no body element). -/
def soupNoMarkers : Soup :=
  nodeListOf [.element "html" []
    (nodeListOf [.element "p" [] (nodeListOf [.text "hello"])])]

/-- C1 counterexample: on a parsed page with neither marker the classifier
returns the empty string, not "Tag Not Found" (that sentinel appears
nowhere in the code). -/
theorem claim1_counterexample :
    hasPWithClassList "cloud-label" soupNoMarkers = false ∧
    hasPWithClassList "on-prem-label" soupNoMarkers = false ∧
    get_deployment_type_from_scraping (some soupNoMarkers) = "" ∧
    get_deployment_type_from_scraping (some soupNoMarkers) ≠ "Tag Not Found" := by
  refine ⟨by decide, by decide, by decide, by decide⟩

/-- C1 (amended): the classifier maps the four boolean combinations of
(cloud marker present, on-prem marker present) to
"Alation Cloud Service, Customer Managed", "Alation Cloud Service",
"Customer Managed", and the empty string respectively. -/
theorem claim1_truth_table :
    ∀ soup : Soup,
      (hasPWithClassList "cloud-label" soup = true →
        hasPWithClassList "on-prem-label" soup = true →
        get_deployment_type_from_scraping (some soup) =
          "Alation Cloud Service, Customer Managed") ∧
      (hasPWithClassList "cloud-label" soup = true →
        hasPWithClassList "on-prem-label" soup = false →
        get_deployment_type_from_scraping (some soup) = "Alation Cloud Service") ∧
      (hasPWithClassList "cloud-label" soup = false →
        hasPWithClassList "on-prem-label" soup = true →
        get_deployment_type_from_scraping (some soup) = "Customer Managed") ∧
      (hasPWithClassList "cloud-label" soup = false →
        hasPWithClassList "on-prem-label" soup = false →
        get_deployment_type_from_scraping (some soup) = "") := by
  intro soup
  refine ⟨fun h1 h2 => ?_, fun h1 h2 => ?_, fun h1 h2 => ?_, fun h1 h2 => ?_⟩
  all_goals simp [get_deployment_type_from_scraping, h1, h2]

/-- Witness for C1 at the four concrete marker combinations. -/
theorem claim1_witness :
    get_deployment_type_from_scraping (some soupBothMarkers) =
      "Alation Cloud Service, Customer Managed" ∧
    get_deployment_type_from_scraping (some soupCloudOnly) = "Alation Cloud Service" ∧
    get_deployment_type_from_scraping (some soupOnPremOnly) = "Customer Managed" ∧
    get_deployment_type_from_scraping (some soupNoMarkers) = "" :=
  ⟨(claim1_truth_table soupBothMarkers).1 (by decide) (by decide),
    (claim1_truth_table soupCloudOnly).2.1 (by decide) (by decide),
    (claim1_truth_table soupOnPremOnly).2.2.1 (by decide) (by decide),
    (claim1_truth_table soupNoMarkers).2.2.2 (by decide) (by decide)⟩

/-! ## Claim C6 -/

/-- A page whose body element is present but empty. -/
def soupEmptyBody : Soup :=
  nodeListOf [.element "html" [] (nodeListOf [.element "body" [] .nil])]

/-- C6 counterexample: when the main-content node is absent the result is
"Main Content Not Found" (not "Content Not Available", which is reserved
for a missing soup), and when the node is present with empty text the
result is the empty string (not "Main Content Not Found"). -/
theorem claim6_counterexample :
    mainContent soupNoMarkers = none ∧
    extract_main_content (some soupNoMarkers) = "Main Content Not Found" ∧
    extract_main_content (some soupNoMarkers) ≠ "Content Not Available" ∧
    extract_main_content (some soupEmptyBody) = "" ∧
    extract_main_content (some soupEmptyBody) ≠ "Main Content Not Found" := by
  refine ⟨rfl, by decide, by decide, by decide, by decide⟩

/-- C6 (amended): a missing soup yields "Content Not Available"; a soup
without an article/main/body node yields "Main Content Not Found"; a
present main-content node whose extracted text is empty yields the empty
string. -/
theorem claim6_sentinels :
    extract_main_content none = "Content Not Available" ∧
    (∀ soup : Soup, mainContent soup = none →
      extract_main_content (some soup) = "Main Content Not Found") ∧
    (∀ (soup : Soup) (m : Node), mainContent soup = some m →
      getTextSepStrip (stripNode m) = "" →
      extract_main_content (some soup) = "") := by
  refine ⟨rfl, ?_, ?_⟩
  · intro soup h
    simp [extract_main_content, h]
  · intro soup m h hempty
    simp [extract_main_content, h, hempty]

/-- Witness for C6 at the three concrete cases. -/
theorem claim6_witness :
    extract_main_content none = "Content Not Available" ∧
    extract_main_content (some soupNoMarkers) = "Main Content Not Found" ∧
    extract_main_content (some soupEmptyBody) = "" :=
  ⟨claim6_sentinels.1,
    claim6_sentinels.2.1 soupNoMarkers rfl,
    claim6_sentinels.2.2 soupEmptyBody (.element "body" [] .nil) rfl (by decide)⟩

/-! ## Claim C7 -/

/-- A body with nav/footer boilerplate around real content. -/
def mainBody : Node :=
  .element "body" []
    (nodeListOf [.element "nav" [] (nodeListOf [.text "menu items"]),
      .text "  hello  ",
      .element "p" [] (nodeListOf [.text "world"]),
      .element "footer" [] (nodeListOf [.text "copyright"])])

/-- A page containing `mainBody` as its body. -/
def soupWithBoiler : Soup := nodeListOf [.element "html" [] (.cons mainBody .nil)]

/-- C7: when a main-content node is chosen (the first of article, main, or
body), the extracted text is exactly the stripped non-empty text fragments
of that subtree, collected while skipping every nav/header/footer/aside
subtree, joined by single spaces — so it contains no text of a removed
subtree and carries no leading or trailing whitespace. -/
theorem claim7_extraction :
    ∀ (soup : Soup) (m : Node), mainContent soup = some m →
      extract_main_content (some soup) =
        String.intercalate " " (cleanFragments m) := by
  intro soup m h
  simp only [extract_main_content, h]
  rw [getTextSepStrip, fragments_strip_eq m (mainContent_not_boiler h)]

/-- Witness for C7 on a page whose body holds nav and footer boilerplate. -/
theorem claim7_witness :
    extract_main_content (some soupWithBoiler) =
      String.intercalate " " (cleanFragments mainBody) ∧
    String.intercalate " " (cleanFragments mainBody) = "hello world" :=
  ⟨claim7_extraction soupWithBoiler mainBody rfl, by decide⟩

/-! ## Claim C4 -/

/-- C4: for every URL whose fetch fails, the produced row has title,
deployment type and page content all equal to the "Fetch Error" sentinel
while keeping the URL, the row sits at the URL's original input position,
and the loop still produces one row per URL (no abort). -/
theorem claim4_fetch_error_row :
    ∀ (fetch : String → Option Soup) (urls : List String),
      (step1_scrape fetch urls).length = urls.length ∧
      ∀ (i : Nat) (h : i < urls.length) (h2 : i < (step1_scrape fetch urls).length),
        fetch (urls.get ⟨i, h⟩) = none →
        ((step1_scrape fetch urls).get ⟨i, h2⟩).pageTitle = "Fetch Error" ∧
        ((step1_scrape fetch urls).get ⟨i, h2⟩).deploymentType = "Fetch Error" ∧
        ((step1_scrape fetch urls).get ⟨i, h2⟩).pageContent = "Fetch Error" ∧
        ((step1_scrape fetch urls).get ⟨i, h2⟩).pageURL = urls.get ⟨i, h⟩ := by
  intro fetch urls
  refine ⟨by simp [step1_scrape], ?_⟩
  intro i h h2 hfail
  have hrow : (step1_scrape fetch urls).get ⟨i, h2⟩ =
      scrapeRow fetch (urls.get ⟨i, h⟩) := by
    simp only [step1_scrape, List.get_eq_getElem, List.getElem_map]
  rw [hrow, scrapeRow, hfail]
  exact ⟨rfl, rfl, rfl, rfl⟩

/-- Witness for C4: a single URL whose fetch always fails. -/
theorem claim4_witness :
    (step1_scrape (fun _ => none) ["https://example.com/a"]).length = 1 ∧
    ((step1_scrape (fun _ => none) ["https://example.com/a"]).get
        ⟨0, by decide⟩).pageTitle = "Fetch Error" ∧
    ((step1_scrape (fun _ => none) ["https://example.com/a"]).get
        ⟨0, by decide⟩).deploymentType = "Fetch Error" ∧
    ((step1_scrape (fun _ => none) ["https://example.com/a"]).get
        ⟨0, by decide⟩).pageContent = "Fetch Error" ∧
    ((step1_scrape (fun _ => none) ["https://example.com/a"]).get
        ⟨0, by decide⟩).pageURL = "https://example.com/a" :=
  ⟨(claim4_fetch_error_row (fun _ => none) ["https://example.com/a"]).1,
    ((claim4_fetch_error_row (fun _ => none) ["https://example.com/a"]).2 0
      (by decide) (by decide) rfl).1,
    ((claim4_fetch_error_row (fun _ => none) ["https://example.com/a"]).2 0
      (by decide) (by decide) rfl).2.1,
    ((claim4_fetch_error_row (fun _ => none) ["https://example.com/a"]).2 0
      (by decide) (by decide) rfl).2.2.1,
    ((claim4_fetch_error_row (fun _ => none) ["https://example.com/a"]).2 0
      (by decide) (by decide) rfl).2.2.2⟩

/-! ## Claim C8 -/

/-- C8 counterexample: a raw response that after trimming is exactly the
closed-set label "Customer Managed" is NOT accepted (no fenced csv block,
result is `none`), while a fenced csv block carrying the out-of-vocabulary
deployment value "Banana" IS accepted wholesale; no "LLM Inference Failed"
value is ever produced. -/
theorem claim8_counterexample :
    process_ai_response simpleCsvFirstRow "Customer Managed" = none ∧
    "Customer Managed" ∈ closedDeploymentLabels ∧
    process_ai_response simpleCsvFirstRow "```csv\nDeployment Type\nBanana\n```" =
      some [("Deployment Type", "Banana")] ∧
    "Banana" ∉ closedDeploymentLabels := by
  refine ⟨by decide, by decide, by decide, by decide⟩

/-- C8 (amended): the code accepts a model response only through a fenced
csv block; with no such block the parse result is `none` for every csv
parser, and enrichment leaves the row unchanged — no validation of the
response against the closed deployment label set occurs, and no
"LLM Inference Failed" sentinel exists. -/
theorem claim8_no_block_no_enrichment :
    ∀ (parse : String → Option AiRow) (resp : String) (row : AiRow),
      findCsvBlock resp.data = none →
      process_ai_response parse resp = none ∧ enrich_row parse resp row = row := by
  intro parse resp row h
  have h1 : process_ai_response parse resp = none := by
    rw [process_ai_response, h]
  exact ⟨h1, by rw [enrich_row, h1]⟩

/-- Witness for C8 at the label-only response. -/
theorem claim8_witness :
    findCsvBlock "Customer Managed".data = none ∧
    process_ai_response simpleCsvFirstRow "Customer Managed" = none ∧
    enrich_row simpleCsvFirstRow "Customer Managed" [("Page URL", "u")] =
      [("Page URL", "u")] :=
  ⟨by decide,
    (claim8_no_block_no_enrichment simpleCsvFirstRow "Customer Managed"
      [("Page URL", "u")] (by decide)).1,
    (claim8_no_block_no_enrichment simpleCsvFirstRow "Customer Managed"
      [("Page URL", "u")] (by decide)).2⟩
